import Mathlib

/-!
Verification of the Task entity model (`src/taipy/task/task.py`).

The Task entity is embedded shallowly: its fields become a Lean structure,
its Python dicts become association lists built with last-write-wins
insertion, and its methods become Lean functions. External collaborators
(`protect_name`, the `Scope` enumeration, `DataSource`, `uuid.uuid4`) whose
source is not part of this repository are modelled from the spec.

Python-semantic points reflected in the embedding:
  * `Task` defines `__hash__` but no `__eq__`, so `==` falls back to
    Python's default object identity.  Object identity is modelled by a
    `ref : Nat` field on each instance.
  * `self.id = id or ...` uses Python truthiness: both `None` and the empty
    string select the generated id.
  * dict comprehensions `{ds.config_name: ds for ds in input}` key on the
    DataSource's raw `config_name`, with a later duplicate key silently
    overwriting the earlier value in place.
-/

namespace Taipy

/-- Modelled from the spec: the `Scope` totally ordered enumeration from
`taipy.data`, whose source is not part of this repository.  The spec gives
the ordering GLOBAL < CYCLE < PIPELINE < SCENARIO with `GLOBAL` the
broadest (least) value. -/
inductive Scope where
  | GLOBAL
  | CYCLE
  | PIPELINE
  | SCENARIO_
  deriving DecidableEq

/-- Numeric rank of a scope level, realising the total order of the spec. -/
def Scope.toNat : Scope → Nat
  | .GLOBAL => 0
  | .CYCLE => 1
  | .PIPELINE => 2
  | .SCENARIO_ => 3

instance : LE Scope := ⟨fun a b => a.toNat ≤ b.toNat⟩

instance : DecidableRel (fun a b : Scope => a ≤ b) :=
  fun a b => inferInstanceAs (Decidable (a.toNat ≤ b.toNat))

/-- Binary minimum of two scopes, as Python's `min` computes it: the second
argument is taken only when strictly smaller, ties keep the first. -/
def scopeMin (a b : Scope) : Scope := if b.toNat < a.toNat then b else a

/-- Modelled from the spec: one character step of the Name Sanitizer
`protect_name` from `taipy.common`, whose source is not part of this
repository.  Per the spec: lowercase alphanumeric characters, dash and
underscore pass through; the space character is replaced by an underscore;
other characters are replaced by a dash. -/
def protectChar (c : Char) : Char :=
  if c.isAlphanum || c = '-' || c = '_' then c
  else if c = ' ' then '_'
  else '-'

/-- Modelled from the spec: the Name Sanitizer `protect_name` from
`taipy.common` (not part of this repository): a deterministic total
function on strings, applied character by character. -/
def protect_name (s : String) : String := ⟨s.data.map protectChar⟩

/-- Modelled from the spec: the external `DataSource` collaborator exposes
`config_name` and `scope` and is otherwise an opaque shared reference;
`ref` models the Python object identity of that shared reference. -/
structure DataSource where
  ref : Nat
  config_name : String
  scope : Scope
  deriving DecidableEq

/-- Insertion into a Python dict modelled as an association list: an
existing key keeps its position and has its value replaced; a new key is
appended. -/
def dictInsert : List (String × DataSource) → String → DataSource → List (String × DataSource)
  | [], k, v => [(k, v)]
  | p :: rest, k, v => if p.1 = k then (k, v) :: rest else p :: dictInsert rest k v

/-- The dict comprehension `{ds.config_name: ds for ds in l}`: entries are
keyed on each element's raw `config_name`, later duplicates overwrite. -/
def buildDict (l : List DataSource) : List (String × DataSource) :=
  l.foldl (fun m ds => dictInsert m ds.config_name ds) []

/-- Python dict lookup: the value at the first (unique) matching key. -/
def dictGet : List (String × DataSource) → String → Option DataSource
  | [], _ => none
  | p :: rest, k => if p.1 = k then some p.2 else dictGet rest k

/-- The last element of `l` whose `config_name` is `k`, if any: the value a
last-write-wins dict comprehension stores under key `k`. -/
def lastMatch : List DataSource → String → Option DataSource
  | [], _ => none
  | ds :: rest, k =>
    match lastMatch rest k with
    | some v => some v
    | none => if ds.config_name = k then some ds else none

/-- The `Task` entity of `src/taipy/task/task.py`.  `ref` models Python
object identity (used by the default `__eq__`); `input` and `output` are
the private dicts `__input` and `__output`; `function` is an opaque
reference to the user callable. -/
structure Task where
  ref : Nat
  config_name : String
  id : String
  parent_id : Option String
  input : List (String × DataSource)
  output : List (String × DataSource)
  function : Nat
  deriving DecidableEq

/-- The generated id `"_".join(["TASK", config_name, str(uuid.uuid4())])`
where `config_name` is already sanitized.  The uuid token is a parameter:
uuid generation is modelled from the spec as a supply of fresh tokens. -/
def mkTaskId (config_name uuid : String) : String :=
  "TASK" ++ "_" ++ config_name ++ "_" ++ uuid

/-- `Task.__init__`.  The `id` argument is `None` or a string; Python's
`id or generated` takes the generated id when `id` is `None` or the empty
string (both falsy).  `output` is `None` or a list, `output or []`
defaulting `None` to the empty list.  `ref` is the fresh object identity of
the new instance and `uuid` the fresh uuid token. -/
def Task.init (config_name : String) (input : List DataSource) (function : Nat)
    (output : Option (List DataSource)) (id : Option String)
    (parent_id : Option String) (ref : Nat) (uuid : String) : Task :=
  let cn := protect_name config_name
  { ref := ref
    config_name := cn
    id := match id with
      | some s => if s = "" then mkTaskId cn uuid else s
      | none => mkTaskId cn uuid
    parent_id := parent_id
    input := buildDict input
    output := buildDict (match output with | some l => l | none => [])
    function := function }

/-- `Task.__hash__`: `hash(self.id)` — the hash of a task is the hash of
its `id` string alone. -/
def Task.hashVal (t : Task) : UInt64 := hash t.id

/-- Python `==` on tasks: `Task` defines no `__eq__`, so comparison is the
default object identity. -/
def Task.pyEq (a b : Task) : Bool := a.ref = b.ref

/-- The attribute names of a Task instance, as stored in `vars(self)`
(`input`/`output` stand for the name-mangled `_Task__input` and
`_Task__output`). -/
inductive Field where
  | config_name
  | id
  | parent_id
  | input
  | output
  | function
  deriving DecidableEq

/-- An attribute value of a Task instance. -/
inductive Value where
  | vStr : String → Value
  | vOptStr : Option String → Value
  | vDict : List (String × DataSource) → Value
  | vFun : Nat → Value
  deriving DecidableEq

/-- `vars(self)`: the attribute dictionary of a Task instance. -/
def Task.varsAt (t : Task) : Field → Value
  | .config_name => .vStr t.config_name
  | .id => .vStr t.id
  | .parent_id => .vOptStr t.parent_id
  | .input => .vDict t.input
  | .output => .vDict t.output
  | .function => .vFun t.function

/-- `Task.__getstate__`: `return vars(self)` — a snapshot holding every
attribute by name (a total dictionary: every field is present). -/
def Task.getstate (t : Task) : Field → Option Value := fun f => some (t.varsAt f)

/-- `Task.__setstate__`: `vars(self).update(state)` — dictionary merge: an
attribute present in `state` (with a value of its type) overwrites the
prior value, an absent one keeps it.  Object identity (`ref`) is not an
attribute and is untouched. -/
def Task.setstate (t : Task) (state : Field → Option Value) : Task :=
  { t with
    config_name := match state .config_name with | some (.vStr s) => s | _ => t.config_name
    id := match state .id with | some (.vStr s) => s | _ => t.id
    parent_id := match state .parent_id with | some (.vOptStr s) => s | _ => t.parent_id
    input := match state .input with | some (.vDict d) => d | _ => t.input
    output := match state .output with | some (.vDict d) => d | _ => t.output
    function := match state .function with | some (.vFun f) => f | _ => t.function }

/-- A blank instance as unpickling creates one (no `__init__` call), before
`__setstate__` runs. -/
def Task.blank (ref : Nat) : Task :=
  { ref := ref, config_name := "", id := "", parent_id := none
    input := [], output := [], function := 0 }

/-- `Task.__getattr__`: sanitize the requested name, look it up in the
input dict then the output dict; on failure log one diagnostic naming the
attribute and the task id and raise `AttributeError`.  The second component
collects the diagnostic log entries emitted by the call. -/
def Task.getattr (t : Task) (attribute_name : String) :
    Except String DataSource × List String :=
  let protected_attribute_name := protect_name attribute_name
  match dictGet t.input protected_attribute_name with
  | some ds => (Except.ok ds, [])
  | none =>
    match dictGet t.output protected_attribute_name with
    | some ds => (Except.ok ds, [])
    | none =>
      (Except.error "AttributeError",
        [attribute_name ++ " is not a data source of task " ++ t.id])

/-- Python's `min(l) if len(l) != 0 else Scope.GLOBAL` over a list of
scopes: the left fold of the binary minimum, `GLOBAL` on the empty
list. -/
def minOrGlobal : List Scope → Scope
  | [] => Scope.GLOBAL
  | s :: rest => rest.foldl scopeMin s

/-- `Task.scope`: the minimum scope over all input and output data sources,
`GLOBAL` when there are none.  The list
`list(self.input.values()) + list(self.output.values())` is the
concatenation of the two dicts' value lists, i.e. `Prod.snd` mapped over
the concatenated entry lists. -/
def Task.scope (t : Task) : Scope :=
  minOrGlobal (((t.input ++ t.output).map Prod.snd).map DataSource.scope)

/-- Sample data source with a sanitizer-fixed-point name. -/
def dsFixed : DataSource := ⟨1, "x_y", Scope.GLOBAL⟩

/-- Sample data source whose name contains a space, so it is not a fixed
point of the sanitizer, yet sanitizes to the same string as `dsFixed`. -/
def dsSpacey : DataSource := ⟨2, "x y", Scope.GLOBAL⟩

/-- Sample task with no inputs and no outputs and an explicit id. -/
def sampleEmpty : Task := Task.init "cfg" [] 7 none (some "TID") none 0 "u0"

/-- Sample task with inputs of scopes SCENARIO and PIPELINE and an output
of scope CYCLE. -/
def sampleScoped : Task :=
  Task.init "s" [⟨1, "i1", Scope.SCENARIO_⟩, ⟨2, "i2", Scope.PIPELINE⟩] 0
    (some [⟨3, "o1", Scope.CYCLE⟩]) (some "SID") none 1 "u"

/-! ### Helper lemmas -/

/-- Reflexivity of the scope order. -/
theorem Scope.le_refl (a : Scope) : a ≤ a := Nat.le.refl

/-- Transitivity of the scope order. -/
theorem Scope.le_trans {a b c : Scope} (h1 : a ≤ b) (h2 : b ≤ c) : a ≤ c :=
  Nat.le_trans h1 h2

/-- The binary scope minimum is one of its arguments. -/
theorem scopeMin_cases (a b : Scope) : scopeMin a b = a ∨ scopeMin a b = b := by
  rw [scopeMin]; split
  · exact Or.inr rfl
  · exact Or.inl rfl

/-- The binary scope minimum is below its first argument. -/
theorem scopeMin_le_left (a b : Scope) : scopeMin a b ≤ a := by
  cases a <;> cases b <;> decide

/-- The binary scope minimum is below its second argument. -/
theorem scopeMin_le_right (a b : Scope) : scopeMin a b ≤ b := by
  cases a <;> cases b <;> decide

/-- A left fold of the scope minimum is below its seed and every element. -/
theorem foldl_scopeMin_le (l : List Scope) (init : Scope) :
    l.foldl scopeMin init ≤ init ∧ ∀ s ∈ l, l.foldl scopeMin init ≤ s := by
  induction l generalizing init with
  | nil => exact ⟨Scope.le_refl _, by simp⟩
  | cons s rest ih =>
    obtain ⟨h1, h2⟩ := ih (scopeMin init s)
    refine ⟨Scope.le_trans h1 (scopeMin_le_left _ _), ?_⟩
    intro x hx
    rcases List.mem_cons.mp hx with hx | hx
    · subst hx
      exact Scope.le_trans h1 (scopeMin_le_right _ _)
    · exact h2 x hx

/-- A left fold of the scope minimum equals its seed or one of the
elements. -/
theorem foldl_scopeMin_mem (l : List Scope) (init : Scope) :
    l.foldl scopeMin init = init ∨ l.foldl scopeMin init ∈ l := by
  induction l generalizing init with
  | nil => exact Or.inl rfl
  | cons s rest ih =>
    rw [List.foldl_cons]
    rcases ih (scopeMin init s) with h | h
    · rw [h]
      rcases scopeMin_cases init s with h2 | h2
      · exact Or.inl h2
      · rw [h2]
        exact Or.inr (List.mem_cons_self _ _)
    · exact Or.inr (List.mem_cons_of_mem _ h)

/-- The sanitizer either keeps a character (one it accepts) or outputs an
underscore or a dash. -/
theorem protectChar_cases (c : Char) :
    protectChar c = c ∨ protectChar c = '_' ∨ protectChar c = '-' := by
  rw [protectChar]
  by_cases h1 : (c.isAlphanum || c = '-' || c = '_') = true
  · rw [if_pos h1]
    exact Or.inl rfl
  · rw [if_neg h1]
    by_cases h2 : c = ' '
    · rw [if_pos h2]
      exact Or.inr (Or.inl rfl)
    · rw [if_neg h2]
      exact Or.inr (Or.inr rfl)

/-- Sanitizing a character twice is the same as sanitizing it once: the
sanitizer only outputs characters it keeps. -/
theorem protectChar_idem (c : Char) : protectChar (protectChar c) = protectChar c := by
  rcases protectChar_cases c with h | h | h
  · rw [h]
    exact h
  · rw [h]
    decide
  · rw [h]
    decide

/-- The Name Sanitizer is idempotent. -/
theorem protect_name_idem (s : String) : protect_name (protect_name s) = protect_name s := by
  apply String.ext
  show (s.data.map protectChar).map protectChar = s.data.map protectChar
  rw [List.map_map]
  exact List.map_congr_left (fun c _ => protectChar_idem c)

/-- Looking up in a dict after inserting: the inserted key maps to the new
value, other keys are untouched. -/
theorem dictGet_dictInsert (m : List (String × DataSource)) (k k' : String) (v : DataSource) :
    dictGet (dictInsert m k v) k' = if k' = k then some v else dictGet m k' := by
  induction m with
  | nil =>
    rw [dictInsert]
    by_cases h : k' = k
    · subst h
      simp [dictGet]
    · have h' : ¬ (k = k') := fun hc => h hc.symm
      simp [dictGet, h, h']
  | cons p rest ih =>
    rw [dictInsert]
    by_cases hp : p.1 = k
    · rw [if_pos hp]
      by_cases h : k' = k
      · subst h
        simp [dictGet]
      · have h' : ¬ (k = k') := fun hc => h hc.symm
        have hp' : ¬ (p.1 = k') := fun hc => h' (hp.symm.trans hc)
        simp [dictGet, h, h', hp']
    · rw [if_neg hp]
      rw [dictGet]
      by_cases hq : p.1 = k'
      · rw [if_pos hq]
        have h : ¬ (k' = k) := fun hc => hp (hq.trans hc)
        rw [if_neg h, dictGet, if_pos hq]
      · rw [if_neg hq, ih]
        by_cases h : k' = k
        · rw [if_pos h, if_pos h]
        · rw [if_neg h, if_neg h, dictGet, if_neg hq]

/-- Folding dict insertions over a list: the result at key `k` is the last
element of the list named `k`, falling back to the accumulator. -/
theorem dictGet_foldl (l : List DataSource) (m : List (String × DataSource)) (k : String) :
    dictGet (l.foldl (fun m ds => dictInsert m ds.config_name ds) m) k =
      match lastMatch l k with
      | some v => some v
      | none => dictGet m k := by
  induction l generalizing m with
  | nil => rfl
  | cons ds rest ih =>
    rw [List.foldl_cons, lastMatch, ih]
    cases hr : lastMatch rest k with
    | some v => rfl
    | none =>
      rw [dictGet_dictInsert]
      by_cases h : ds.config_name = k
      · rw [if_pos h, if_pos h.symm]
      · rw [if_neg h, if_neg (fun hc => h hc.symm)]

/-- The dict built from a list of data sources stores, under key `k`, the
last element whose `config_name` is `k` (last-write-wins). -/
theorem dictGet_buildDict (l : List DataSource) (k : String) :
    dictGet (buildDict l) k = lastMatch l k := by
  rw [buildDict, dictGet_foldl]
  cases lastMatch l k <;> rfl

/-- A value produced by `lastMatch` is an element of the list and carries
the looked-up name. -/
theorem lastMatch_mem {l : List DataSource} {k : String} {v : DataSource}
    (h : lastMatch l k = some v) : v ∈ l ∧ v.config_name = k := by
  induction l with
  | nil => simp [lastMatch] at h
  | cons ds rest ih =>
    rw [lastMatch] at h
    cases hr : lastMatch rest k with
    | some w =>
      rw [hr] at h
      cases h
      obtain ⟨h1, h2⟩ := ih hr
      exact ⟨List.mem_cons_of_mem _ h1, h2⟩
    | none =>
      rw [hr] at h
      by_cases hc : ds.config_name = k
      · rw [if_pos hc] at h
        cases h
        exact ⟨List.mem_cons_self _ _, hc⟩
      · rw [if_neg hc] at h
        cases h

/-- `lastMatch` finds a value exactly when some element carries the name. -/
theorem lastMatch_isSome_iff (l : List DataSource) (k : String) :
    (lastMatch l k).isSome = true ↔ ∃ ds ∈ l, ds.config_name = k := by
  induction l with
  | nil => simp [lastMatch]
  | cons ds rest ih =>
    rw [lastMatch]
    cases hr : lastMatch rest k with
    | some w =>
      refine ⟨fun _ => ?_, fun _ => rfl⟩
      obtain ⟨h1, h2⟩ := lastMatch_mem hr
      exact ⟨w, List.mem_cons_of_mem _ h1, h2⟩
    | none =>
      have hrest : ¬ ∃ d ∈ rest, d.config_name = k := by
        rw [← ih, hr]
        simp
      by_cases hc : ds.config_name = k
      · rw [if_pos hc]
        exact ⟨fun _ => ⟨ds, List.mem_cons_self _ _, hc⟩, fun _ => rfl⟩
      · rw [if_neg hc]
        refine ⟨fun h => absurd h (by decide), ?_⟩
        rintro ⟨d, hd, hk⟩
        rcases List.mem_cons.mp hd with hd | hd
        · exact absurd (hd ▸ hk) hc
        · exact absurd ⟨d, hd, hk⟩ hrest

/-- The result component of `__getattr__` as a two-stage dict lookup. -/
theorem getattr_resolve (t : Task) (n : String) :
    (t.getattr n).1 =
      match dictGet t.input (protect_name n) with
      | some ds => Except.ok ds
      | none =>
        match dictGet t.output (protect_name n) with
        | some ds => Except.ok ds
        | none => Except.error "AttributeError" := by
  cases h1 : dictGet t.input (protect_name n) with
  | some ds => simp [Task.getattr, h1]
  | none =>
    cases h2 : dictGet t.output (protect_name n) with
    | some ds => simp [Task.getattr, h1, h2]
    | none => simp [Task.getattr, h1, h2]

/-- String concatenation is associative. -/
theorem str_append_assoc (a b c : String) : a ++ b ++ c = a ++ (b ++ c) := by
  apply String.ext
  simp [String.data_append, List.append_assoc]

/-- Resolution behaviour of `__getattr__` on a task whose two dicts were
built from lists of data sources: success is equivalent to some bound
source carrying the sanitized name as its raw `config_name`; a source
whose `config_name` is not a sanitizer fixed point is never returned; and
when every bound source has a non-fixed-point name, every access fails. -/
theorem getattr_ok_iff (inp out : List DataSource) (t : Task)
    (hin : t.input = buildDict inp) (hout : t.output = buildDict out) (n : String) :
    ((∃ ds, (t.getattr n).1 = Except.ok ds) ↔
      ∃ ds, (ds ∈ inp ∨ ds ∈ out) ∧ ds.config_name = protect_name n) ∧
    (∀ ds : DataSource, protect_name ds.config_name ≠ ds.config_name →
      (t.getattr n).1 ≠ Except.ok ds) := by
  have hres : (t.getattr n).1 =
      match lastMatch inp (protect_name n) with
      | some ds => Except.ok ds
      | none =>
        match lastMatch out (protect_name n) with
        | some ds => Except.ok ds
        | none => Except.error "AttributeError" := by
    rw [getattr_resolve, hin, hout, dictGet_buildDict, dictGet_buildDict]
  constructor
  · rw [hres]
    cases h1 : lastMatch inp (protect_name n) with
    | some v =>
      obtain ⟨hm, hn⟩ := lastMatch_mem h1
      exact ⟨fun _ => ⟨v, Or.inl hm, hn⟩, fun _ => ⟨v, rfl⟩⟩
    | none =>
      cases h2 : lastMatch out (protect_name n) with
      | some v =>
        obtain ⟨hm, hn⟩ := lastMatch_mem h2
        exact ⟨fun _ => ⟨v, Or.inr hm, hn⟩, fun _ => ⟨v, rfl⟩⟩
      | none =>
        constructor
        · rintro ⟨ds, hds⟩
          cases hds
        · rintro ⟨ds, hmem, hname⟩
          rcases hmem with hmem | hmem
          · have : (lastMatch inp (protect_name n)).isSome = true :=
              (lastMatch_isSome_iff _ _).mpr ⟨ds, hmem, hname⟩
            rw [h1] at this
            cases this
          · have : (lastMatch out (protect_name n)).isSome = true :=
              (lastMatch_isSome_iff _ _).mpr ⟨ds, hmem, hname⟩
            rw [h2] at this
            cases this
  · intro ds hfp heq
    rw [hres] at heq
    have hname : ds.config_name = protect_name n := by
      cases h1 : lastMatch inp (protect_name n) with
      | some v =>
        rw [h1] at heq
        cases heq
        exact (lastMatch_mem h1).2
      | none =>
        rw [h1] at heq
        cases h2 : lastMatch out (protect_name n) with
        | some v =>
          rw [h2] at heq
          cases heq
          exact (lastMatch_mem h2).2
        | none =>
          rw [h2] at heq
          cases heq
    apply hfp
    rw [hname, protect_name_idem, ← hname]

/-! ### Claim theorems -/

/-- Claim C1, counterexample: two tasks built with the same explicit `id`
`"ID-1"` but different configNames have equal ids, yet Python comparison
(object identity, since `Task` defines `__hash__` but no `__eq__`) finds
them unequal — the claim that equal `id` implies the instances compare
equal is false on the code. -/
theorem claim_C1_counterexample :
    (Task.init "aa" [] 0 none (some "ID-1") none 0 "u0").id =
      (Task.init "bb" [] 0 none (some "ID-1") none 1 "u1").id ∧
    (Task.init "aa" [] 0 none (some "ID-1") none 0 "u0").config_name ≠
      (Task.init "bb" [] 0 none (some "ID-1") none 1 "u1").config_name ∧
    Task.pyEq (Task.init "aa" [] 0 none (some "ID-1") none 0 "u0")
      (Task.init "bb" [] 0 none (some "ID-1") none 1 "u1") = false := by
  decide

/-- Claim C1, amended: `Task.__hash__` derives the hash solely from `id`
(equal ids always hash equal), but `Task` does not override `__eq__`, so
equality is Python object identity: two tasks compare equal iff they are
the same instance; in particular distinct instances compare unequal even
with equal `id`, and distinct instances with different `id` but identical
configName, inputs and outputs also compare unequal. -/
theorem claim_C1 (t1 t2 : Task) :
    (Task.pyEq t1 t2 = true ↔ t1.ref = t2.ref) ∧
    (t1.id = t2.id → t1.hashVal = t2.hashVal) := by
  constructor
  · simp [Task.pyEq]
  · intro h
    rw [Task.hashVal, Task.hashVal, h]

/-- Claim C1, witness: the amended theorem applied to two concrete tasks
sharing an explicit id. -/
theorem claim_C1_witness :
    (Task.init "aa" [] 0 none (some "X") none 0 "u").hashVal =
      (Task.init "bb" [] 0 none (some "X") none 1 "u").hashVal :=
  (claim_C1 (Task.init "aa" [] 0 none (some "X") none 0 "u")
    (Task.init "bb" [] 0 none (some "X") none 1 "u")).2 (by decide)

/-- Claim C2, counterexample: constructing a task with the explicit id `""`
does not store `""` — `self.id = id or generated` treats the empty string
as falsy and generates a fresh id instead. -/
theorem claim_C2_counterexample :
    (Task.init "cfg" [] 0 none (some "") none 0 "u0").id ≠ "" := by
  decide

/-- Claim C2, amended: for every construction with an explicit non-empty
`id` equal to a string X, the task's `id` equals X exactly, with no
re-derivation, re-validation or re-sanitization; an explicit empty-string
id is falsy under `id or ...` and is replaced by a generated id. -/
theorem claim_C2 (config_name : String) (input : List DataSource) (function : Nat)
    (output : Option (List DataSource)) (x : String) (parent_id : Option String)
    (ref : Nat) (uuid : String) (h : x ≠ "") :
    (Task.init config_name input function output (some x) parent_id ref uuid).id = x := by
  simp [Task.init, h]

/-- Claim C2, witness: the amended theorem applied to a concrete non-empty
explicit id. -/
theorem claim_C2_witness :
    (Task.init "cfg" [] 0 none (some "myid") none 0 "u").id = "myid" :=
  claim_C2 "cfg" [] 0 none "myid" none 0 "u" (by decide)

/-- Claim C5: restoring a snapshot produced by `__getstate__` leaves the
restored task's entire attribute set equal to the snapshot's contents for
every prior state — the snapshot carries every field, so `vars(self)
.update(state)` replaces each one and nothing of the prior state
survives. -/
theorem claim_C5 (prior t : Task) (f : Field) :
    (prior.setstate t.getstate).varsAt f = t.varsAt f := by
  cases f <;> rfl

/-- Claim C6: capturing a freshly constructed task's snapshot and restoring
it into a blank instance yields an instance equal to the original in `id`,
`configName`, inputs, outputs and function reference. -/
theorem claim_C6 (config_name : String) (input : List DataSource) (function : Nat)
    (output : Option (List DataSource)) (id : Option String) (parent_id : Option String)
    (ref : Nat) (uuid : String) (ref2 : Nat) :
    ((Task.blank ref2).setstate
        (Task.init config_name input function output id parent_id ref uuid).getstate).id =
      (Task.init config_name input function output id parent_id ref uuid).id ∧
    ((Task.blank ref2).setstate
        (Task.init config_name input function output id parent_id ref uuid).getstate).config_name =
      (Task.init config_name input function output id parent_id ref uuid).config_name ∧
    ((Task.blank ref2).setstate
        (Task.init config_name input function output id parent_id ref uuid).getstate).input =
      (Task.init config_name input function output id parent_id ref uuid).input ∧
    ((Task.blank ref2).setstate
        (Task.init config_name input function output id parent_id ref uuid).getstate).output =
      (Task.init config_name input function output id parent_id ref uuid).output ∧
    ((Task.blank ref2).setstate
        (Task.init config_name input function output id parent_id ref uuid).getstate).function =
      (Task.init config_name input function output id parent_id ref uuid).function :=
  ⟨rfl, rfl, rfl, rfl, rfl⟩

/-- Claim C9: the stored `config_name` of any constructed task is a fixed
point of the Name Sanitizer — sanitizing it once more returns it
unchanged. -/
theorem claim_C9 (config_name : String) (input : List DataSource) (function : Nat)
    (output : Option (List DataSource)) (id : Option String) (parent_id : Option String)
    (ref : Nat) (uuid : String) :
    protect_name
        (Task.init config_name input function output id parent_id ref uuid).config_name =
      (Task.init config_name input function output id parent_id ref uuid).config_name :=
  protect_name_idem config_name

/-- Claim C3: `scope` returns `GLOBAL` when the task has no input and no
output data sources; otherwise it returns a bound data source's scope that
is minimal, under the Scope order, among the scopes of all bound inputs
and outputs. -/
theorem claim_C3 (t : Task) :
    (t.input = [] → t.output = [] → t.scope = Scope.GLOBAL) ∧
    (∀ p ∈ t.input ++ t.output, t.scope ≤ p.2.scope) ∧
    (t.input ++ t.output ≠ [] → ∃ p ∈ t.input ++ t.output, t.scope = p.2.scope) := by
  refine ⟨?_, ?_, ?_⟩
  · intro h1 h2
    simp [Task.scope, h1, h2, minOrGlobal]
  · intro p hp
    have hmem : p.2.scope ∈ ((t.input ++ t.output).map Prod.snd).map DataSource.scope :=
      List.mem_map_of_mem _ (List.mem_map_of_mem _ hp)
    cases hs : ((t.input ++ t.output).map Prod.snd).map DataSource.scope with
    | nil =>
      rw [hs] at hmem
      cases hmem
    | cons s rest =>
      rw [hs] at hmem
      have hscope : t.scope = rest.foldl scopeMin s := by
        rw [Task.scope, hs]
        rfl
      rw [hscope]
      rcases List.mem_cons.mp hmem with h | h
      · rw [← h] at *
        exact (foldl_scopeMin_le rest p.2.scope).1
      · exact (foldl_scopeMin_le rest s).2 _ h
  · intro hne
    cases hs : ((t.input ++ t.output).map Prod.snd).map DataSource.scope with
    | nil =>
      exact absurd (List.map_eq_nil_iff.mp (List.map_eq_nil_iff.mp hs)) hne
    | cons s rest =>
      have hscope : t.scope = rest.foldl scopeMin s := by
        rw [Task.scope, hs]
        rfl
      have hmem : t.scope ∈ s :: rest := by
        rw [hscope]
        rcases foldl_scopeMin_mem rest s with h | h
        · rw [h]
          exact List.mem_cons_self _ _
        · exact List.mem_cons_of_mem _ h
      rw [← hs] at hmem
      obtain ⟨ds, hds, hdse⟩ := List.mem_map.mp hmem
      obtain ⟨p, hp, hpe⟩ := List.mem_map.mp hds
      exact ⟨p, hp, by rw [hpe, hdse]⟩

/-- Claim C3, witness: a task with no bound data sources has scope GLOBAL,
and a task with input scopes SCENARIO and PIPELINE and output scope CYCLE
attains its scope on one of its bound sources. -/
theorem claim_C3_witness :
    sampleEmpty.scope = Scope.GLOBAL ∧
    ∃ p ∈ sampleScoped.input ++ sampleScoped.output, sampleScoped.scope = p.2.scope :=
  ⟨(claim_C3 sampleEmpty).1 rfl rfl, (claim_C3 sampleScoped).2.2 (by decide)⟩

/-- Claim C4: attribute access sanitizes the name, looks it up first in the
inputs mapping then the outputs mapping, returning the exact bound
DataSource; when the sanitized name is in neither mapping it returns the
AttributeError and emits exactly one diagnostic log entry containing the
missing name and the task's id. -/
theorem claim_C4 (t : Task) (n : String) :
    (∀ ds, dictGet t.input (protect_name n) = some ds → t.getattr n = (Except.ok ds, [])) ∧
    (dictGet t.input (protect_name n) = none →
      ∀ ds, dictGet t.output (protect_name n) = some ds → t.getattr n = (Except.ok ds, [])) ∧
    (dictGet t.input (protect_name n) = none → dictGet t.output (protect_name n) = none →
      t.getattr n = (Except.error "AttributeError",
        [n ++ " is not a data source of task " ++ t.id])) := by
  refine ⟨?_, ?_, ?_⟩
  · intro ds h
    simp [Task.getattr, h]
  · intro h1 ds h2
    simp [Task.getattr, h1, h2]
  · intro h1 h2
    simp [Task.getattr, h1, h2]

/-- Claim C4, witness: on a task with no bound data sources, access to
`"zzz"` fails with the AttributeError and one log entry naming `"zzz"` and
the task id. -/
theorem claim_C4_witness :
    sampleEmpty.getattr "zzz" = (Except.error "AttributeError",
      ["zzz" ++ " is not a data source of task " ++ sampleEmpty.id]) :=
  (claim_C4 sampleEmpty "zzz").2.2 (by decide) (by decide)

/-- Claim C7, counterexample: `dsFixed` (named `"x_y"`) and `dsSpacey`
(named `"x y"`) share the same configName after sanitization, yet the
inputs mapping built from `[dsFixed, dsSpacey]` has two entries, and the
entry under the shared sanitized name is `dsFixed`, not the later
`dsSpacey` — the dict is keyed on raw config names, so the claimed
overwrite does not happen. -/
theorem claim_C7_counterexample :
    protect_name dsFixed.config_name = protect_name dsSpacey.config_name ∧
    dsFixed ≠ dsSpacey ∧
    (Task.init "cfg" [dsFixed, dsSpacey] 0 (some []) (some "T") none 0 "u").input.length = 2 ∧
    dictGet (Task.init "cfg" [dsFixed, dsSpacey] 0 (some []) (some "T") none 0 "u").input
        (protect_name dsSpacey.config_name) = some dsFixed := by
  decide

/-- Claim C7, amended: when two input data sources a and b (in that order)
have equal raw `config_name` strings (the mappings are keyed on each
DataSource's own raw `config_name`, which the Task never sanitizes), the
inputs mapping contains exactly one entry under that name and it equals b;
the same holds independently for the outputs mapping; in general the value
stored under any key is the last bound source carrying that name, and
duplicate names are never rejected. -/
theorem claim_C7 (a b : DataSource) (h : a.config_name = b.config_name)
    (config_name : String) (function : Nat) (id : Option String)
    (parent_id : Option String) (ref : Nat) (uuid : String) :
    (Task.init config_name [a, b] function (some []) id parent_id ref uuid).input =
      [(b.config_name, b)] ∧
    (Task.init config_name [] function (some [a, b]) id parent_id ref uuid).output =
      [(b.config_name, b)] ∧
    ∀ (l : List DataSource) (k : String),
      dictGet (Task.init config_name l function (some []) id parent_id ref uuid).input k =
        lastMatch l k := by
  refine ⟨?_, ?_, ?_⟩
  · show buildDict [a, b] = [(b.config_name, b)]
    simp [buildDict, dictInsert, h]
  · show buildDict [a, b] = [(b.config_name, b)]
    simp [buildDict, dictInsert, h]
  · intro l k
    exact dictGet_buildDict l k

/-- Claim C7, witness: the amended theorem applied to two concrete data
sources with the same raw name. -/
theorem claim_C7_witness :
    (Task.init "c" [⟨1, "n", Scope.GLOBAL⟩, ⟨2, "n", Scope.SCENARIO_⟩] 0 (some [])
        (some "T") none 0 "u").input = [("n", ⟨2, "n", Scope.SCENARIO_⟩)] :=
  (claim_C7 ⟨1, "n", Scope.GLOBAL⟩ ⟨2, "n", Scope.SCENARIO_⟩ rfl "c" 0 (some "T")
    none 0 "u").1

/-- Claim C8: a task constructed without an explicit id gets an id starting
with the literal `TASK_`, containing the sanitized configName as a
substring; two such constructions with the same configName and distinct
fresh uuid tokens never produce equal ids. -/
theorem claim_C8 (config_name : String) (input : List DataSource) (function : Nat)
    (output : Option (List DataSource)) (parent_id : Option String)
    (ref1 ref2 : Nat) (u1 u2 : String) (h : u1 ≠ u2) :
    (∃ rest, (Task.init config_name input function output none parent_id ref1 u1).id =
      "TASK_" ++ rest) ∧
    (∃ pre suf, (Task.init config_name input function output none parent_id ref1 u1).id =
      pre ++ protect_name config_name ++ suf) ∧
    (Task.init config_name input function output none parent_id ref1 u1).id ≠
      (Task.init config_name input function output none parent_id ref2 u2).id := by
  have hid : ∀ (r : Nat) (u : String),
      (Task.init config_name input function output none parent_id r u).id =
        "TASK" ++ "_" ++ protect_name config_name ++ "_" ++ u := fun _ _ => rfl
  have hT : "TASK" ++ "_" = ("TASK_" : String) := by decide
  refine ⟨?_, ?_, ?_⟩
  · refine ⟨protect_name config_name ++ ("_" ++ u1), ?_⟩
    rw [hid, hT, str_append_assoc, str_append_assoc]
  · refine ⟨"TASK" ++ "_", "_" ++ u1, ?_⟩
    rw [hid]
    exact str_append_assoc _ _ _
  · intro heq
    apply h
    rw [hid, hid] at heq
    have hd := congrArg String.data heq
    rw [String.data_append, String.data_append] at hd
    exact String.ext (List.append_cancel_left hd)

/-- Claim C8, witness: two constructions with the same configName and the
distinct fresh tokens `"u1"` and `"u2"` give distinct ids. -/
theorem claim_C8_witness :
    (Task.init "c" [] 0 none none none 0 "u1").id ≠
      (Task.init "c" [] 0 none none none 1 "u2").id :=
  (claim_C8 "c" [] 0 none none 0 1 "u1" "u2" (by decide)).2.2

/-- Claim C10: attribute access on a constructed task resolves to a bound
DataSource iff the sanitized name equals the raw, un-resanitized
`config_name` of some bound input or output; consequently a DataSource
whose `config_name` is not a fixed point of the sanitizer is never
returned by any attribute access. -/
theorem claim_C10 (config_name : String) (input : List DataSource) (function : Nat)
    (output : List DataSource) (id : Option String) (parent_id : Option String)
    (ref : Nat) (uuid : String) (n : String) :
    ((∃ ds, ((Task.init config_name input function (some output) id parent_id ref
        uuid).getattr n).1 = Except.ok ds) ↔
      ∃ ds, (ds ∈ input ∨ ds ∈ output) ∧ ds.config_name = protect_name n) ∧
    ∀ ds : DataSource, protect_name ds.config_name ≠ ds.config_name →
      ((Task.init config_name input function (some output) id parent_id ref
        uuid).getattr n).1 ≠ Except.ok ds :=
  getattr_ok_iff input output _ rfl rfl n

/-- Claim C10, witness: on a task binding `dsFixed` and `dsSpacey` as
inputs, access to `"x_y"` resolves (some bound source carries that
sanitized name), while `dsSpacey`, whose name `"x y"` is not a sanitizer
fixed point, is never the result of the access. -/
theorem claim_C10_witness :
    (∃ ds, ((Task.init "cfg" [dsFixed, dsSpacey] 0 (some []) (some "T") none 0
      "u").getattr "x_y").1 = Except.ok ds) ∧
    ((Task.init "cfg" [dsFixed, dsSpacey] 0 (some []) (some "T") none 0
      "u").getattr "x_y").1 ≠ Except.ok dsSpacey :=
  ⟨(claim_C10 "cfg" [dsFixed, dsSpacey] 0 [] (some "T") none 0 "u" "x_y").1.mpr
      ⟨dsFixed, Or.inl (List.mem_cons_self _ _), by decide⟩,
    (claim_C10 "cfg" [dsFixed, dsSpacey] 0 [] (some "T") none 0 "u" "x_y").2
      dsSpacey (by decide)⟩

end Taipy
